import Mathlib

/-!
Verification of the toronto-library-calendar normalization pipeline.

The JavaScript sources are shallowly embedded below:
* `EventProcessor` (`normalizeEvent`, `cleanText`, `parseDate`,
  `normalizeDateToEST`) from `services/eventProcessor.js`;
* the `GET /` date serialization and the `GET /new` recency filter and
  `days` validation from `routes/events.js`;
* `LocationProcessor` (`createLocationLookup`, `findLibraryCoordinates`)
  from `services/locationProcessor.js`;
* the `renderCalendar` grid construction and event bucketing from
  `public/js/app.js`.

Conventions of the embedding:
* A JavaScript `Date` is modelled as its instant, an `Int` counting minutes
  since the Unix epoch (sub-minute precision never matters to the code
  under study; `Date.now()` nonces are carried separately in milliseconds).
* The process-local timezone is a fixed offset `tz` in minutes east of UTC
  (UTC+14 is `840`, U.S. Eastern in winter is `-300`); `nyOff` is the
  America/New_York offset, in minutes east of UTC, at the instants under
  consideration (`-300` for EST, `-240` for EDT).  `new Date(y, m, d)`
  is the instant `day * 1440 - tz` where `day` is the civil day number,
  and reading the local calendar components of an instant `t` is
  `civilFromDays ((t + tz) / 1440)`.
* Missing (`undefined`/`null`) fields are `none`; JavaScript string
  truthiness (`""` is falsy) is modelled explicitly.
-/

/-- The whitespace characters relevant to this data model, as matched by
JavaScript's `\s` and `String.prototype.trim` on the inputs in play. -/
def isWs (c : Char) : Bool :=
  c == ' ' || c == '\t' || c == '\n' || c == '\r'

/-- `String.prototype.trim`: drop whitespace from both ends. -/
def trimL (cs : List Char) : List Char :=
  ((cs.dropWhile isWs).reverse.dropWhile isWs).reverse

/-- Collapse consecutive spaces to one (the second half of
`replace(/\s+/g, ' ')` after whitespace has been mapped to spaces). -/
def squeezeSpaces : List Char → List Char
  | [] => []
  | [c] => [c]
  | a :: b :: r =>
    if a == ' ' && b == ' ' then squeezeSpaces (b :: r)
    else a :: squeezeSpaces (b :: r)

/-- `replace(/\s+/g, ' ')`: each maximal whitespace run becomes one space. -/
def collapseWs (cs : List Char) : List Char :=
  squeezeSpaces (cs.map fun c => if isWs c then ' ' else c)

/-- `EventProcessor.cleanText` / `LocationProcessor.cleanText`:
`if (!text || typeof text !== 'string') return null;
 return text.trim().replace(/\s+/g, ' ') || null;` -/
def cleanText : Option String → Option String
  | none => none
  | some s =>
    if s = "" then none
    else
      let r := collapseWs (trimL s.toList)
      if r = [] then none else some (String.mk r)

/-- JavaScript `a || dflt` for a possibly-missing string `a`. -/
def jsStrOr (o : Option String) (dflt : String) : String :=
  match o with
  | none => dflt
  | some s => if s = "" then dflt else s

/-- JavaScript `[xs].filter(Boolean)` over possibly-missing strings:
keeps the present, non-empty entries in order. -/
def truthyList (l : List (Option String)) : List String :=
  l.filterMap fun o =>
    match o with
    | none => none
    | some s => if s = "" then none else some s

/-- First truthy entry of a candidate list (`a || b || c` over strings). -/
def firstTruthy (l : List (Option String)) : Option String :=
  (truthyList l).head?

/-- The decimal digit character for `n < 10`. -/
def digitChar (n : Nat) : Char := Char.ofNat (48 + n)

/-- Accumulator loop for `natToDigits`; `fuel` only bounds the
recursion and is always sufficient at `fuel = n`. -/
def natToDigitsGo : Nat → Nat → List Char → List Char
  | 0, n, acc => digitChar n :: acc
  | fuel + 1, n, acc =>
    if n < 10 then digitChar n :: acc
    else natToDigitsGo fuel (n / 10) (digitChar (n % 10) :: acc)

/-- Decimal digits of `n`, most significant first (JavaScript
`String(n)` for a non-negative integer). -/
def natToDigits (n : Nat) : List Char := natToDigitsGo n n []

/-- JavaScript `String(n)` for a non-negative integer. -/
def natRepr (n : Nat) : String := String.mk (natToDigits n)

/-- `String(n).padStart(2, '0')`. -/
def pad2 (n : Nat) : List Char :=
  if n < 10 then '0' :: natToDigits n else natToDigits n

/-- Numeric value of a digit character (`parseInt` of one digit). -/
def digitVal (c : Char) : Nat := c.toNat - 48

/-- Days since 1970-01-01 of the civil date `(y, m, d)` (proleptic
Gregorian).  This is the calendar arithmetic JavaScript's `Date`
performs for `new Date(y, m - 1, d)`; out-of-range months and days
roll over linearly exactly as `Date` normalizes them. -/
def daysFromCivil (y m d : Int) : Int :=
  let yAdj := if m ≤ 2 then y - 1 else y
  let era := yAdj / 400
  let yoe := yAdj - era * 400
  let mp := if m > 2 then m - 3 else m + 9
  let doy := (153 * mp + 2) / 5 + d - 1
  let doe := yoe * 365 + yoe / 4 - yoe / 100 + doy
  era * 146097 + doe - 719468

/-- Inverse of `daysFromCivil`: civil `(y, m, d)` of a day number. -/
def civilFromDays (z0 : Int) : Int × Int × Int :=
  let z := z0 + 719468
  let era := z / 146097
  let doe := z - era * 146097
  let yoe := (doe - doe / 1460 + doe / 36524 - doe / 146096) / 365
  let y := yoe + era * 400
  let doy := doe - (365 * yoe + yoe / 4 - yoe / 100)
  let mp := (5 * doy + 2) / 153
  let d := doy - (153 * mp + 2) / 5 + 1
  let m := if mp < 10 then mp + 3 else mp - 9
  (if m ≤ 2 then y + 1 else y, m, d)

/-- Day number of a civil triple. -/
def daysFromCivil3 (c : Int × Int × Int) : Int := daysFromCivil c.1 c.2.1 c.2.2

/-- Day of the week of a day number, `0 = Sunday .. 6 = Saturday`
(1970-01-01 was a Thursday). -/
def dayOfWeekNum (z : Int) : Int := (z + 4) % 7

/-- The raw event record fields consumed by `EventProcessor.normalizeEvent`
(`_id` is spelled `_id` in the source as well).  All fields are untrusted
and optional; values are strings as delivered by the open-data feed. -/
structure RawRecord where
  _id : Option String := none
  id : Option String := none
  event_id : Option String := none
  title : Option String := none
  description : Option String := none
  startdate : Option String := none
  enddate : Option String := none
  starttime : Option String := none
  endtime : Option String := none
  library : Option String := none
  location : Option String := none
  eventtype1 : Option String := none
  eventtype2 : Option String := none
  eventtype3 : Option String := none
  agegroup1 : Option String := none
  agegroup2 : Option String := none
  agegroup3 : Option String := none
  pagelink : Option String := none
  deriving Repr, DecidableEq

/-- The canonical event produced by `normalizeEvent`.  `startDate`,
`endDate` and `lastUpdated` are instants in minutes since the epoch
(`lastUpdated` is `new Date()` at normalization time); `rawData` is the
raw record retained verbatim. -/
structure Event where
  eventId : String
  title : Option String
  description : Option String
  startDate : Option Int
  endDate : Option Int
  startTime : Option String
  endTime : Option String
  library : Option String
  libraryAddress : Option String
  room : Option String
  category : Option String
  ageGroup : Option String
  program : Option String
  capacity : Option Int
  registration : Option String
  phone : Option String
  email : Option String
  website : Option String
  lastUpdated : Int
  dataSource : String
  rawData : RawRecord
  deriving Repr, DecidableEq

/-- The regular expression `^(\d{4})-(\d{2})-(\d{2})$` of
`EventProcessor.parseDate`, with `parseInt` applied to the three
capture groups. -/
def matchDateOnly (cs : List Char) : Option (Int × Int × Int) :=
  match cs with
  | [y1, y2, y3, y4, h1, m1, m2, h2, d1, d2] =>
    if y1.isDigit && y2.isDigit && y3.isDigit && y4.isDigit && h1 == '-' &&
       m1.isDigit && m2.isDigit && h2 == '-' && d1.isDigit && d2.isDigit then
      some ((((digitVal y1 * 10 + digitVal y2) * 10 + digitVal y3) * 10 + digitVal y4 : Nat),
            (digitVal m1 * 10 + digitVal m2 : Nat),
            (digitVal d1 * 10 + digitVal d2 : Nat))
    else none
  | _ => none

/-- The instant of `new Date(y, m, d)`: local midnight of civil day
`day`, in a process whose local offset is `tz` minutes east of UTC. -/
def localMidnightInstant (day tz : Int) : Int := day * 1440 - tz

/-- The America/New_York civil day number of an instant. -/
def nyCivilDay (t nyOff : Int) : Int := (t + nyOff) / 1440

/-- `EventProcessor.normalizeDateToEST`: read the date components of the
instant `t` as they appear in America/New_York and return
`new Date(estYear, estMonth, estDay)`, i.e. local midnight of that
civil date. -/
def normalizeDateToEST (t tz nyOff : Int) : Int :=
  localMidnightInstant (nyCivilDay t nyOff) tz

/-- `EventProcessor.parseDate` on a string input.  The date-only branch
(`YYYY-MM-DD`) is embedded in full: `new Date(year, month, day)`
followed by `normalizeDateToEST`.  Strings that do not match the
date-only pattern fall to the moment.js / native-`Date` parsing chain,
modelled by the explicit function argument `fallbackParse` (that chain
is a fixed, deterministic function of the string and the process
timezone, which are both fixed here).  The source also accepts a `Date`
instance, sending it straight to `normalizeDateToEST`; only string
inputs occur in the record fields under study. -/
def parseDate (s : String) (tz nyOff : Int) (fallbackParse : String → Option Int) :
    Option Int :=
  if s = "" then none
  else
    let cleanDate := String.mk (trimL s.toList)
    if cleanDate = "" then none
    else
      match matchDateOnly cleanDate.toList with
      | some (y, m, d) =>
        some (normalizeDateToEST (localMidnightInstant (daysFromCivil y m d) tz) tz nyOff)
      | none => fallbackParse cleanDate

/-- `parseDate` applied to a possibly-missing field (`if (!dateStr) return null`). -/
def parseDateField (o : Option String) (tz nyOff : Int)
    (fallbackParse : String → Option Int) : Option Int :=
  match o with
  | none => none
  | some s => parseDate s tz nyOff fallbackParse

/-- `title?.replace(/\s+/g, '_').toLowerCase()` of the fallback-id
template: whitespace runs become single underscores, then lower-case. -/
def lowerChar (c : Char) : Char :=
  if 'A' ≤ c && c ≤ 'Z' then Char.ofNat (c.toNat + 32) else c

/-- ASCII lower-casing of a string (`String.prototype.toLowerCase` on
the ASCII names this data model contains). -/
def toLowerStr (s : String) : String := String.mk (s.toList.map lowerChar)

/-- The slug of the fallback event id. -/
def slugify (s : String) : String :=
  toLowerStr (String.mk ((collapseWs s.toList).map fun c => if c == ' ' then '_' else c))

/-- The fallback event id
`` `event_${rawEvent.title?.replace(/\s+/g, '_').toLowerCase()}_${Date.now()}` ``;
a missing title interpolates as the string `"undefined"`, and `now` is
the `Date.now()` value in milliseconds at the moment of the call. -/
def fallbackId (title : Option String) (now : Nat) : String :=
  "event_" ++ (match title with | none => "undefined" | some s => slugify s) ++
    "_" ++ natRepr now

/-- `EventProcessor.normalizeEvent`.  `now` is the wall clock at the
call (`Date.now()` in milliseconds for the id nonce; the same instant,
in minutes, is stored in `lastUpdated` — only its identity across calls
matters below, so milliseconds are kept for both). -/
def normalizeEvent (fb : String → Option Int) (tz nyOff : Int)
    (raw : RawRecord) (now : Nat) : Event :=
  let eventId :=
    match firstTruthy [raw._id, raw.id, raw.event_id] with
    | some s => s
    | none => fallbackId raw.title now
  let categories := truthyList [raw.eventtype1, raw.eventtype2, raw.eventtype3]
  let primaryCategory := match categories.head? with | some c => c | none => "General"
  let ageGroups := truthyList [raw.agegroup1, raw.agegroup2, raw.agegroup3]
  let primaryAgeGroup : Option String := ageGroups.head?
  { eventId := eventId
    title := cleanText (some (jsStrOr raw.title "Untitled Event"))
    description := cleanText (some (jsStrOr raw.description ""))
    startDate := parseDateField raw.startdate tz nyOff fb
    endDate := parseDateField raw.enddate tz nyOff fb
    startTime := cleanText raw.starttime
    endTime := cleanText raw.endtime
    library := cleanText raw.library
    libraryAddress := cleanText raw.location
    room := none
    category := cleanText (some primaryCategory)
    ageGroup := cleanText primaryAgeGroup
    program := cleanText (some (String.intercalate ", " categories))
    capacity := none
    registration := none
    phone := none
    email := none
    website := cleanText raw.pagelink
    lastUpdated := now
    dataSource := "toronto-library-events"
    rawData := raw }

/-- Local calendar components of an instant, as read by
`getFullYear` / `getMonth() + 1` / `getDate` in a process with local
offset `tz`. -/
def localCivilOfInstant (t tz : Int) : Int × Int × Int :=
  civilFromDays ((t + tz) / 1440)

/-- `` `${year}-${month.padStart(2,'0')}-${day.padStart(2,'0')}` ``. -/
def formatYMD (y m d : Nat) : String :=
  String.mk (natToDigits y ++ '-' :: (pad2 m ++ '-' :: pad2 d))

/-- The `GET /` date serialization of `routes/events.js`: read the local
calendar components of a stored `Date` and format them `YYYY-MM-DD`. -/
def serializeDateField (t tz : Int) : String :=
  let c := localCivilOfInstant t tz
  formatYMD c.1.toNat c.2.1.toNat c.2.2.toNat

/-- The last-modified fields of the raw record as consulted by the
`GET /new` filter of `routes/events.js`.  Values are modelled as
already-parsed instants in milliseconds (`new Date(value).getTime()`);
`none` is an absent value.  (A present but unparseable date string also
leads to exclusion in the source, through a separate early `return
false`; that branch is not distinguished here.) -/
structure RawTimes where
  lastupdated : Option Int := none
  lastUpdated : Option Int := none
  deriving Repr, DecidableEq

/-- The shape of an event object as inspected by the `GET /new` API-path
filter: the two spellings of the top-level last-modified field, the raw
record's two spellings, and `startDate` (an instant in milliseconds). -/
structure NewEvent where
  rawData : Option RawTimes := none
  lastupdated : Option Int := none
  lastUpdated : Option Int := none
  startDate : Option Int := none
  tag : Nat := 0
  deriving Repr, DecidableEq

/-- `Date.UTC(getUTCFullYear(), getUTCMonth(), getUTCDate(), 0, 0, 0, 0)`:
truncate an instant in milliseconds to UTC midnight. -/
def utcMidnightMs (t : Int) : Int := t / 86400000 * 86400000

/-- The `GET /new` threshold: UTC midnight of `now`'s UTC calendar date,
minus `daysNum` days. -/
def thresholdDate (now daysNum : Int) : Int :=
  utcMidnightMs now - daysNum * 86400000

/-- JavaScript `a || b` over possibly-missing instants (a present parsed
date value is truthy; the values in play are never the literal `0`). -/
def jsInstOr (a b : Option Int) : Option Int :=
  match a with
  | some x => some x
  | none => b

/-- The per-event predicate of the `GET /new` API-path filter
(`routes/events.js`, the `processedEvents.filter(...)` callback):
prefer `rawData.lastupdated || rawData.lastUpdated`, else
`event.lastupdated || event.lastUpdated`; a present value is compared,
truncated to UTC midnight, against the threshold; an absent value falls
back to the per-event `startDate` recency test
`daysDiff <= daysNum || daysDiff < 0`. -/
def newApiInclude (e : NewEvent) (now daysNum : Int) : Bool :=
  let th := thresholdDate now daysNum
  let luv : Option Int :=
    match e.rawData with
    | some rd =>
      match jsInstOr rd.lastupdated rd.lastUpdated with
      | some x => some x
      | none => jsInstOr e.lastupdated e.lastUpdated
    | none => jsInstOr e.lastupdated e.lastUpdated
  match luv with
  | some t => decide (utcMidnightMs t ≥ th)
  | none =>
    match e.startDate with
    | some sd => decide (now - sd ≤ daysNum * 86400000) || decide (now - sd < 0)
    | none => false

/-- The `GET /new` API-path filter over the whole processed list. -/
def newApiFiltered (l : List NewEvent) (now daysNum : Int) : List NewEvent :=
  l.filter (newApiInclude · now daysNum)

/-- JavaScript `parseInt(s, 10)`: skip leading whitespace, an optional
sign, then the longest leading run of decimal digits; `none` models
`NaN`. -/
def jsParseInt (s : String) : Option Int :=
  let cs := s.toList.dropWhile isWs
  let core : List Char → Option Nat := fun l =>
    let ds := l.takeWhile Char.isDigit
    if ds = [] then none
    else some (ds.foldl (fun acc c => acc * 10 + digitVal c) 0)
  match cs with
  | '-' :: rest => (core rest).map (fun n => -(n : Int))
  | '+' :: rest => (core rest).map (fun n => (n : Int))
  | rest => (core rest).map (fun n => (n : Int))

/-- The allowed `days` windows of `GET /new`. -/
def validDays : List Int := [1, 4, 7, 14, 21, 28]

/-- Outcome of the `days` validation at the top of `GET /new`: either an
early `res.status(400).json({success: false, ..., events: []})` (before
any data is fetched or filtered), or proceeding with the validated day
count. -/
inductive NewDaysOutcome where
  | errorResp (status : Nat) (success : Bool) (eventsEmpty : Bool)
  | proceed (daysNum : Int)
  deriving Repr, DecidableEq

/-- `const { days = 28 } = req.query` followed by
`parseInt(days, 10)`: the default applies only when the parameter is
absent (and `parseInt(28, 10) = 28`). -/
def getNewDaysNum (daysParam : Option String) : Option Int :=
  match daysParam with
  | none => some 28
  | some s => jsParseInt s

/-- The `days` validation of `GET /new`:
`if (!validDays.includes(daysNum)) return 400 ...` (`NaN` is never in
the list). -/
def handleNewDays (daysParam : Option String) : NewDaysOutcome :=
  match getNewDaysNum daysParam with
  | some n =>
    if validDays.contains n then .proceed n
    else .errorResp 400 false true
  | none => .errorResp 400 false true

/-- Whether the integer parse of a `days` value misses the allowed list
(`NaN` counts as missing it). -/
def parseMissesValidDays (s : String) : Bool :=
  match jsParseInt s with
  | some n => !(validDays.contains n)
  | none => true

/-- Case-sensitive list prefix test (`String.prototype.includes` core). -/
def startsWithL : List Char → List Char → Bool
  | [], _ => true
  | _ :: _, [] => false
  | p :: pr, c :: cr => p == c && startsWithL pr cr

/-- `hay.includes(pat)`. -/
def containsSub (hay pat : List Char) : Bool :=
  match hay with
  | [] => pat.isEmpty
  | _ :: rest => startsWithL pat hay || containsSub rest pat

/-- Case-insensitive list prefix test (a `/.../i` literal match). -/
def ciStartsWith : List Char → List Char → Bool
  | [], _ => true
  | _ :: _, [] => false
  | p :: pr, c :: cr => lowerChar p == lowerChar c && ciStartsWith pr cr

/-- `s.replace(/pat/i, '')` for a literal pattern: delete the first
case-insensitive occurrence. -/
def replaceFirstCI (pat : List Char) : List Char → List Char
  | [] => []
  | c :: rest =>
    if ciStartsWith pat (c :: rest) then List.drop pat.length (c :: rest)
    else c :: replaceFirstCI pat rest

/-- Regex word character (`\w`). -/
def isWordChar (c : Char) : Bool := c.isAlpha || c.isDigit || c == '_'

/-- Whether position `l` ends a whole word after `pat`: the character
following the match, if any, is not a word character (the `\b` after the
alternation). -/
def wordEndOk (pat l : List Char) : Bool :=
  match l.drop pat.length with
  | [] => true
  | c :: _ => !isWordChar c

/-- One left-to-right scan of `s.replace(/\b(p1|p2|...)\b/gi, '')`:
at each position whose left context is a word boundary, the first
alternative that matches case-insensitively and ends at a word boundary
is deleted; scanning resumes after the deleted text.  `fuel` bounds the
recursion by the length of the remaining input. -/
def wbScan (pats : List (List Char)) : Nat → Option Char → List Char → List Char
  | 0, _, rest => rest
  | _ + 1, _, [] => []
  | fuel + 1, prev, c :: rest =>
    let boundaryOk := match prev with | none => true | some p => !isWordChar p
    match (if boundaryOk then
             pats.find? (fun pat =>
               !pat.isEmpty && ciStartsWith pat (c :: rest) && wordEndOk pat (c :: rest))
           else none) with
    | some pat =>
      wbScan pats fuel ((c :: rest).take pat.length).getLast? ((c :: rest).drop pat.length)
    | none => c :: wbScan pats fuel (some c) rest

/-- The alternation `(library|branch|public|tpl)` used by both the index
builder and the resolver. -/
def wordStripPats : List (List Char) :=
  ["library".toList, "branch".toList, "public".toList, "tpl".toList]

/-- `s.replace(/\b(library|branch|public|tpl)\b/gi, '')`. -/
def replaceWordsCI (cs : List Char) : List Char :=
  wbScan wordStripPats cs.length none cs

/-- `lowerName.replace(/\s+library.*$/i, '')`: truncate at the first
whitespace run that is immediately followed by `library`
(case-insensitively); `.*$` removes the rest of the string. -/
def cutAtWsLib : List Char → List Char
  | [] => []
  | c :: rest =>
    if isWs c && ciStartsWith "library".toList (rest.dropWhile isWs) then []
    else c :: cutAtWsLib rest

/-- JavaScript object assignment `m[k] = v`: overwrite in place if the
key exists (keeping its insertion position), else append. -/
def objAssign {α : Type} (m : List (String × α)) (k : String) (v : α) :
    List (String × α) :=
  match m with
  | [] => [(k, v)]
  | (k', v') :: rest => if k' = k then (k, v) :: rest else (k', v') :: objAssign rest k v

/-- JavaScript property read `m[k]` (case-sensitive). -/
def objGet {α : Type} (m : List (String × α)) (k : String) : Option α :=
  (m.find? (fun p => p.1 == k)).map (·.2)

/-- A raw branch/location record as consumed by
`LocationProcessor.normalizeLocation`.  `Lat` / `Long` are modelled as
already-parsed numbers (`parseFloat` of the feed value, scaled to an
integer — the code only tests them for truthiness and stores them);
`PhysicalBranch` is the numeric flag of the feed. -/
structure RawLocation where
  _id : Option String := none
  id : Option String := none
  BranchName : Option String := none
  Address : Option String := none
  PostalCode : Option String := none
  Lat : Option Int := none
  Long : Option Int := none
  Telephone : Option String := none
  Website : Option String := none
  BranchCode : Option String := none
  PhysicalBranch : Option Int := none
  ServiceTier : Option String := none
  deriving Repr, DecidableEq

/-- `LocationProcessor.parseCoordinate`: `if (!coord) return null` (a
missing or zero value is falsy), then the numeric value. -/
def parseCoordinate (o : Option Int) : Option Int :=
  match o with
  | none => none
  | some v => if v = 0 then none else some v

/-- Output of `LocationProcessor.normalizeLocation`. -/
structure NormalizedLocation where
  id : Option String
  name : Option String
  address : Option String
  postalCode : Option String
  latitude : Option Int
  longitude : Option Int
  phone : Option String
  website : Option String
  branchCode : Option String
  physicalBranch : Option Int
  serviceTier : Option String
  deriving Repr, DecidableEq

/-- `LocationProcessor.normalizeLocation`. -/
def normalizeLocation (raw : RawLocation) : NormalizedLocation :=
  { id := firstTruthy [raw._id, raw.id]
    name := cleanText raw.BranchName
    address := cleanText raw.Address
    postalCode := cleanText raw.PostalCode
    latitude := parseCoordinate raw.Lat
    longitude := parseCoordinate raw.Long
    phone := cleanText raw.Telephone
    website := cleanText raw.Website
    branchCode := cleanText raw.BranchCode
    physicalBranch := raw.PhysicalBranch
    serviceTier := cleanText raw.ServiceTier }

/-- The coordinate payload shared by every name variant of a branch. -/
structure LocationData where
  lat : Int
  lng : Int
  address : Option String
  phone : Option String
  website : Option String
  branchCode : Option String
  serviceTier : Option String
  deriving Repr, DecidableEq

/-- `LocationProcessor.createLocationLookup`: for each physical branch
with truthy name and non-zero coordinates, install the seven name
variants (as-is, lower-cased, and with `library` / `branch` /
`public library` / `tpl` / any whole word of the alternation stripped)
as keys of one shared payload, skipping keys of length ≤ 1. -/
def createLocationLookup (locations : List RawLocation) :
    List (String × LocationData) :=
  locations.foldl (fun lookup location =>
    let n := normalizeLocation location
    match n.name, n.latitude, n.longitude with
    | some name, some lat, some lng =>
      if n.physicalBranch == some 1 && name != "" && lat != 0 && lng != 0 then
        let keys : List String :=
          [name,
           toLowerStr name,
           String.mk (trimL (replaceFirstCI "library".toList name.toList)),
           String.mk (trimL (replaceFirstCI "branch".toList name.toList)),
           String.mk (trimL (replaceFirstCI "public library".toList name.toList)),
           String.mk (trimL (replaceFirstCI "tpl".toList name.toList)),
           String.mk (trimL (replaceWordsCI name.toList))]
        let locationData : LocationData :=
          { lat := lat, lng := lng, address := n.address, phone := n.phone
            website := n.website, branchCode := n.branchCode
            serviceTier := n.serviceTier }
        keys.foldl (fun lk key =>
          if key != "" && key.length > 1 then objAssign lk key locationData else lk)
          lookup
      else lookup
    | _, _, _ => lookup) []

/-- The query-side cleaned variants of
`LocationProcessor.findLibraryCoordinates`. -/
def searchTermsOf (lowerName : String) : List String :=
  [String.mk (trimL (replaceFirstCI "library".toList lowerName.toList)),
   String.mk (trimL (replaceFirstCI "branch".toList lowerName.toList)),
   String.mk (trimL (replaceFirstCI "public".toList lowerName.toList)),
   String.mk (trimL (cutAtWsLib lowerName.toList)),
   String.mk (trimL (replaceWordsCI lowerName.toList))]

/-- The fuzzy scan of `findLibraryCoordinates`: the first index key (in
insertion order) that contains or is contained in the term, with
absolute length difference at most 5. -/
def fuzzyKeyFind (lookup : List (String × LocationData)) (term : String) :
    Option String :=
  (lookup.map (·.1)).find? (fun key =>
    let lowerKey := (toLowerStr key).toList
    (containsSub lowerKey term.toList || containsSub term.toList lowerKey) &&
      ((lowerKey.length : Int) - term.toList.length).natAbs ≤ 5)

/-- The `for (const term of searchTerms)` loop of
`findLibraryCoordinates`: direct hit on a truthy term, else fuzzy scan,
else the next term. -/
def searchTermsLoop (lookup : List (String × LocationData)) :
    List String → Option LocationData
  | [] => none
  | term :: rest =>
    match (if term != "" then objGet lookup term else none) with
    | some v => some v
    | none =>
      match fuzzyKeyFind lookup term with
      | some k => objGet lookup k
      | none => searchTermsLoop lookup rest

/-- `LocationProcessor.findLibraryCoordinates`: exact key, then
lower-cased key, then the search-term loop. -/
def findLibraryCoordinates (libraryName : String)
    (lookup : List (String × LocationData)) : Option LocationData :=
  if libraryName = "" then none
  else
    match objGet lookup libraryName with
    | some v => some v
    | none =>
      let lowerName := toLowerStr libraryName
      match objGet lookup lowerName with
      | some v => some v
      | none => searchTermsLoop lookup (searchTermsOf lowerName)

/-- An event as seen by `renderCalendar` in `public/js/app.js`:
`startDate` is the civil day number encoded by the event's
`YYYY-MM-DD` string (for which the code builds
`new Date(year, month - 1, day)`, local midnight of that day); `tag`
distinguishes events, standing in for the remaining payload. -/
structure CalEvent where
  startDay : Option Int := none
  tag : Nat := 0
  deriving Repr, DecidableEq

/-- The America/New_York civil day of local midnight of civil day
`day` — the `Intl.DateTimeFormat('en-US', {timeZone:
'America/New_York'})` component read that `renderCalendar` and
`getDayOfWeekInEST` perform on `new Date(y, m, d)`. -/
def estDayOfLocalDay (day tz nyOff : Int) : Int :=
  (day * 1440 - tz + nyOff) / 1440

/-- `getDayOfWeekInEST` applied to local midnight of civil day `day`. -/
def getDayOfWeekInEST (day tz nyOff : Int) : Int :=
  dayOfWeekNum (estDayOfLocalDay day tz nyOff)

/-- One cell of the rendered grid: its civil day number and local
calendar components, the `other-month` / `today` classification, and
the event list attached to it. -/
structure CalCell where
  cellDay : Int
  cellDate : Int × Int × Int
  isCurrentMonth : Bool
  isToday : Bool
  dayEvents : List CalEvent
  deriving Repr, DecidableEq

/-- `new Date(year, month, 1)` of the render: first day of the target
month (`month` is 0-indexed as in JavaScript). -/
def gridFirstDay (year month : Int) : Int := daysFromCivil year (month + 1) 1

/-- `new Date(year, month + 1, 0)`: last day of the target month. -/
def gridLastDay (year month : Int) : Int := daysFromCivil year (month + 2) 0

/-- `startDate`: the Sunday of the week containing the first day. -/
def gridStartDay (year month tz nyOff : Int) : Int :=
  gridFirstDay year month - getDayOfWeekInEST (gridFirstDay year month) tz nyOff

/-- `endDate`: the Saturday of the week containing the last day. -/
def gridEndDay (year month tz nyOff : Int) : Int :=
  gridLastDay year month + (6 - getDayOfWeekInEST (gridLastDay year month) tz nyOff)

/-- `Map.get(k).push(e)` after `if (!has(k)) set(k, [])`: append `e` to
the bucket of `k`, creating the bucket at the end in insertion order. -/
def bucketPush (m : List ((Int × Int × Int) × List CalEvent))
    (k : Int × Int × Int) (e : CalEvent) :
    List ((Int × Int × Int) × List CalEvent) :=
  match m with
  | [] => [(k, [e])]
  | (k', l) :: rest =>
    if k' = k then (k', l ++ [e]) :: rest else (k', l) :: bucketPush rest k e

/-- `visibleEvents.get(k) || []`: the list at the first entry whose key
equals `k`, or `[]`. -/
def bucketGet : List ((Int × Int × Int) × List CalEvent) → (Int × Int × Int) →
    List CalEvent
  | [], _ => []
  | (k', l) :: rest, k => if k' = k then l else bucketGet rest k

/-- The body of the `eventsData.forEach` pre-pass of `renderCalendar`
for one event: read its America/New_York calendar components, and if
local midnight of that civil date lies between local midnight of
`startDate`'s and of `endDate`'s components, push the event into the
bucket keyed by those components (the `YYYY-MM-DD` `dateKey` is in
bijection with the component triple). -/
def visStep (startD endD tz nyOff : Int)
    (acc : List ((Int × Int × Int) × List CalEvent)) (e : CalEvent) :
    List ((Int × Int × Int) × List CalEvent) :=
  match e.startDay with
  | none => acc
  | some d =>
    let estC := civilFromDays (estDayOfLocalDay d tz nyOff)
    if daysFromCivil3 (civilFromDays startD) ≤ daysFromCivil3 estC ∧
       daysFromCivil3 estC ≤ daysFromCivil3 (civilFromDays endD) then
      bucketPush acc estC e
    else acc

/-- The `eventsData.forEach` pre-pass of `renderCalendar` over the
whole event list. -/
def buildVisibleEvents (events : List CalEvent) (startD endD tz nyOff : Int) :
    List ((Int × Int × Int) × List CalEvent) :=
  events.foldl (visStep startD endD tz nyOff) []

/-- The cell loop of `renderCalendar`, given the two week-day offsets
already computed.  `today` is the EST civil triple of `getDateInEST()`.
Events are attached to a cell only when `isCurrentMonth` holds
(`if (isCurrentMonth) dayEvents = visibleEvents.get(dateKey) || []`). -/
def renderCalendarAux (year month tz nyOff : Int) (events : List CalEvent)
    (today : Int × Int × Int) (fdow ldow : Int) : List CalCell :=
  let startD := gridFirstDay year month - fdow
  let endD := gridLastDay year month + (6 - ldow)
  let totalDays := endD - startD + 1
  let weeksNeeded := (totalDays + 6) / 7
  let vis := buildVisibleEvents events startD endD tz nyOff
  (List.range (weeksNeeded.toNat * 7)).map fun (i : Nat) =>
    let cellDay := startD + (i : Int)
    let c := civilFromDays cellDay
    let isCur := decide (c.2.1 - 1 = month ∧ c.1 = year)
    { cellDay := cellDay
      cellDate := c
      isCurrentMonth := isCur
      isToday := decide (c = today)
      dayEvents := if isCur then bucketGet vis c else [] }

/-- `renderCalendar` for the month `(year, month)` (0-indexed month as
in JavaScript), with the process timezone and New York offset made
explicit. -/
def renderCalendarCells (year month tz nyOff : Int) (events : List CalEvent)
    (today : Int × Int × Int) : List CalCell :=
  renderCalendarAux year month tz nyOff events today
    (getDayOfWeekInEST (gridFirstDay year month) tz nyOff)
    (getDayOfWeekInEST (gridLastDay year month) tz nyOff)

/-- A fixed instantiation of the non-date-only parsing chain, used when
evaluating at concrete inputs (no input below reaches it). -/
def fb0 : String → Option Int := fun _ => none

/-- A raw record with no source id field and a plain title. -/
def rawNoId : RawRecord := { title := some "Story Time" }

/-- A raw record with a source id. -/
def rawWithId : RawRecord := { _id := some "23-456", title := some "Story Time" }

/-- A raw record with every field absent. -/
def emptyRaw : RawRecord := ({} : RawRecord)

/-- A raw record whose first category slot is whitespace-only and whose
second is populated. -/
def rawWsCat : RawRecord :=
  { eventtype1 := some "  ", eventtype2 := some "Storytime" }

/-- An event for the `GET /new` filter carrying a raw last-modified
value and nothing else. -/
def evWithMeta : NewEvent :=
  { rawData := some { lastupdated := some 1699900000000 }, tag := 1 }

/-- An event for the `GET /new` filter lacking every last-modified
field (both spellings, top level and in `rawData`), with a start date
one day in the future of the `now` used below. -/
def evNoMeta : NewEvent :=
  { rawData := some ({} : RawTimes), startDate := some 1700086400000, tag := 2 }

/-- A calendar event dated 2024-01-28, the leading grid day of the
February 2024 render under an Eastern process timezone. -/
def calJan28 : CalEvent := { startDay := some (daysFromCivil 2024 1 28), tag := 7 }

/-- A calendar event dated 2024-02-05, inside the target month. -/
def calFeb5 : CalEvent := { startDay := some (daysFromCivil 2024 2 5), tag := 9 }

/-- The raw branch record of the location-resolution claim, with its
coordinates left symbolic. -/
def nycRecord (lat lng : Int) : RawLocation :=
  { BranchName := some "North York Central Library"
    Address := some "5120 Yonge St"
    Telephone := some "416-395-5535"
    Lat := some lat
    Long := some lng
    PhysicalBranch := some 1 }

/-- The payload `createLocationLookup` stores for `nycRecord`. -/
def nycData (lat lng : Int) : LocationData :=
  { lat := lat, lng := lng, address := some "5120 Yonge St"
    phone := some "416-395-5535", website := none, branchCode := none
    serviceTier := none }

/-- C1.  The date-only branch of `EventProcessor.parseDate` is *not*
independent of the process timezone: for the input `"2024-01-15"`, a
process at UTC−12 and one at U.S. Eastern (UTC−5) both decode the civil
triple (2024, 1, 15), but a process at UTC+14 decodes (2024, 1, 14) —
`new Date(year, month, day)` is local midnight, which already lies on
the previous New York calendar day in zones east of New York.  This
contradicts the claim (and the function's own comments, which promise
consistency across server timezones). -/
theorem c1_parseDate_depends_on_timezone :
    ((parseDate "2024-01-15" (-720) (-300) fb0).map (localCivilOfInstant · (-720)) =
      (parseDate "2024-01-15" (-300) (-300) fb0).map (localCivilOfInstant · (-300))) ∧
    ((parseDate "2024-01-15" 840 (-300) fb0).map (localCivilOfInstant · 840) ≠
      (parseDate "2024-01-15" (-300) (-300) fb0).map (localCivilOfInstant · (-300))) ∧
    ((parseDate "2024-01-15" (-300) (-300) fb0).map (localCivilOfInstant · (-300)) =
      some (2024, 1, 15)) ∧
    ((parseDate "2024-01-15" 840 (-300) fb0).map (localCivilOfInstant · 840) =
      some (2024, 1, 14)) := by
  decide

/-- C3.  The serialize/re-parse round trip fails east of Eastern: in a
UTC process, an `Event` whose stored `startDate` is local midnight of
civil day 2024-01-15 serializes to `"2024-01-15"`, but re-parsing that
string with `parseDate` yields a `Date` whose calendar day reads
2024-01-14 — not the original civil date.  Under an Eastern process the
round trip does return the original date. -/
theorem c3_roundtrip_fails_east_of_eastern :
    (localCivilOfInstant (localMidnightInstant (daysFromCivil 2024 1 15) 0) 0 =
      (2024, 1, 15)) ∧
    (serializeDateField (localMidnightInstant (daysFromCivil 2024 1 15) 0) 0 =
      "2024-01-15") ∧
    ((parseDate (serializeDateField (localMidnightInstant (daysFromCivil 2024 1 15) 0) 0)
        0 (-300) fb0).map (localCivilOfInstant · 0) = some (2024, 1, 14)) ∧
    ((parseDate (serializeDateField (localMidnightInstant (daysFromCivil 2024 1 15) (-300))
        (-300)) (-300) (-300) fb0).map (localCivilOfInstant · (-300)) =
      some (2024, 1, 15)) := by
  decide

/-- C2 counterexample.  `normalizeEvent` is not deterministic on a
record with none of `_id` / `id` / `event_id`: the fallback id embeds
`Date.now()`, so two calls (here at clock values 1000 and 2000)
disagree on `eventId`. -/
theorem c2_counterexample :
    rawNoId._id = none ∧ rawNoId.id = none ∧ rawNoId.event_id = none ∧
    (normalizeEvent fb0 (-300) (-300) rawNoId 1000).eventId ≠
      (normalizeEvent fb0 (-300) (-300) rawNoId 2000).eventId := by
  decide

/-- C2 amended.  `normalizeEvent` is deterministic in `category`,
`startDate` and `endDate` unconditionally, and in `eventId` whenever the
record carries a truthy source id (`_id`, `id` or `event_id`); only the
fallback id of an id-less record depends on the call-time clock. -/
theorem c2_amended_determinism (fb : String → Option Int) (tz nyOff : Int)
    (raw : RawRecord) (t1 t2 : Nat) :
    (firstTruthy [raw._id, raw.id, raw.event_id] ≠ none →
      (normalizeEvent fb tz nyOff raw t1).eventId =
        (normalizeEvent fb tz nyOff raw t2).eventId) ∧
    (normalizeEvent fb tz nyOff raw t1).category =
      (normalizeEvent fb tz nyOff raw t2).category ∧
    (normalizeEvent fb tz nyOff raw t1).startDate =
      (normalizeEvent fb tz nyOff raw t2).startDate ∧
    (normalizeEvent fb tz nyOff raw t1).endDate =
      (normalizeEvent fb tz nyOff raw t2).endDate := by
  refine ⟨?_, rfl, rfl, rfl⟩
  intro h
  show (match firstTruthy [raw._id, raw.id, raw.event_id] with
        | some s => s
        | none => fallbackId raw.title t1) =
      (match firstTruthy [raw._id, raw.id, raw.event_id] with
        | some s => s
        | none => fallbackId raw.title t2)
  cases hf : firstTruthy [raw._id, raw.id, raw.event_id] with
  | none => exact absurd hf h
  | some s => rfl

/-- C2 amended, witness: a record with `_id = "23-456"` gets the same
`eventId` and `category` from calls at clock values 1 and 2. -/
theorem c2_amended_witness :
    (normalizeEvent fb0 (-300) (-300) rawWithId 1).eventId =
      (normalizeEvent fb0 (-300) (-300) rawWithId 2).eventId ∧
    (normalizeEvent fb0 (-300) (-300) rawWithId 1).category =
      (normalizeEvent fb0 (-300) (-300) rawWithId 2).category :=
  ⟨(c2_amended_determinism fb0 (-300) (-300) rawWithId 1 2).1 (by decide),
   (c2_amended_determinism fb0 (-300) (-300) rawWithId 1 2).2.1⟩

/-- C5 counterexample.  On a record with all three `eventtype` fields
absent, the normalized `category` is the placeholder string
`"General"`, not `null`. -/
theorem c5_counterexample :
    emptyRaw.eventtype1 = none ∧ emptyRaw.eventtype2 = none ∧
    emptyRaw.eventtype3 = none ∧
    (normalizeEvent fb0 (-300) (-300) emptyRaw 0).category = some "General" := by
  decide

/-- C5 amended.  The normalized `category` is the cleaned value of the
first *truthy* (present, non-empty) of the three `eventtype` fields —
so a whitespace-only slot survives selection and cleans to `null` —
and when all three are absent or empty strings the category is the
placeholder `"General"`, not `null`.  The four conjuncts cover every
record: all slots falsy, or the first truthy slot is `eventtype1`,
`eventtype2`, or `eventtype3`. -/
theorem c5_amended_category (fb : String → Option Int) (tz nyOff : Int)
    (raw : RawRecord) (now : Nat) :
    ((raw.eventtype1 = none ∨ raw.eventtype1 = some "") →
     (raw.eventtype2 = none ∨ raw.eventtype2 = some "") →
     (raw.eventtype3 = none ∨ raw.eventtype3 = some "") →
     (normalizeEvent fb tz nyOff raw now).category = some "General") ∧
    (∀ s, raw.eventtype1 = some s → s ≠ "" →
     (normalizeEvent fb tz nyOff raw now).category = cleanText (some s)) ∧
    (∀ s, (raw.eventtype1 = none ∨ raw.eventtype1 = some "") →
     raw.eventtype2 = some s → s ≠ "" →
     (normalizeEvent fb tz nyOff raw now).category = cleanText (some s)) ∧
    (∀ s, (raw.eventtype1 = none ∨ raw.eventtype1 = some "") →
     (raw.eventtype2 = none ∨ raw.eventtype2 = some "") →
     raw.eventtype3 = some s → s ≠ "" →
     (normalizeEvent fb tz nyOff raw now).category = cleanText (some s)) := by
  have hcat : (normalizeEvent fb tz nyOff raw now).category =
      cleanText (some (match
        (truthyList [raw.eventtype1, raw.eventtype2, raw.eventtype3]).head? with
        | some c => c
        | none => "General")) := rfl
  refine ⟨?_, ?_, ?_, ?_⟩
  · rintro (h1 | h1) (h2 | h2) (h3 | h3) <;> rw [hcat, h1, h2, h3] <;> decide
  · intro s hs hne
    rw [hcat, hs]
    simp [truthyList, hne]
  · rintro s (h1 | h1) h2 hne <;> rw [hcat, h1, h2] <;> simp [truthyList, hne]
  · rintro s (h1 | h1) (h2 | h2) h3 hne <;> rw [hcat, h1, h2, h3] <;>
      simp [truthyList, hne]

/-- A raw record whose first category slot is empty and whose second is
populated. -/
def rawSlot2 : RawRecord := { eventtype1 := some "", eventtype2 := some "Storytime" }

/-- A raw record whose first category slot is absent, second empty, and
third populated. -/
def rawSlot3 : RawRecord := { eventtype2 := some "", eventtype3 := some "Arts & Crafts" }

/-- C5 amended, witness: the all-absent record gets `"General"`; a
record whose first slot is whitespace-only gets that slot cleaned
(which is `none`); records whose first truthy slot is the second or the
third get that slot cleaned. -/
theorem c5_amended_witness :
    (normalizeEvent fb0 (-300) (-300) emptyRaw 0).category = some "General" ∧
    (normalizeEvent fb0 (-300) (-300) rawWsCat 0).category = cleanText (some "  ") ∧
    (normalizeEvent fb0 (-300) (-300) rawSlot2 0).category =
      cleanText (some "Storytime") ∧
    (normalizeEvent fb0 (-300) (-300) rawSlot3 0).category =
      cleanText (some "Arts & Crafts") :=
  ⟨(c5_amended_category fb0 (-300) (-300) emptyRaw 0).1
      (Or.inl rfl) (Or.inl rfl) (Or.inl rfl),
   (c5_amended_category fb0 (-300) (-300) rawWsCat 0).2.1 "  " rfl (by decide),
   (c5_amended_category fb0 (-300) (-300) rawSlot2 0).2.2.1 "Storytime"
      (Or.inr rfl) rfl (by decide),
   (c5_amended_category fb0 (-300) (-300) rawSlot3 0).2.2.2 "Arts & Crafts"
      (Or.inl rfl) (Or.inr rfl) rfl (by decide)⟩

/-- A possibly-missing source string that is absent, empty, or
whitespace-only. -/
def blankStrOpt (o : Option String) : Prop :=
  ∀ s, o = some s → trimL s.toList = []

/-- `cleanText` maps a whitespace-only (or empty) string to `none`. -/
theorem cleanText_of_blank (s : String) (h : trimL s.toList = []) :
    cleanText (some s) = none := by
  show (if s = "" then none
        else
          let r := collapseWs (trimL s.toList)
          if r = [] then none else some (String.mk r)) = none
  by_cases hs : s = ""
  · simp [hs]
  · rw [if_neg hs, h]
    rfl

/-- `cleanText` maps a blank optional value to `none`. -/
theorem cleanText_of_blankOpt (o : Option String) (h : blankStrOpt o) :
    cleanText o = none := by
  cases o with
  | none => rfl
  | some s => exact cleanText_of_blank s (h s rfl)

/-- The `field || ''` then `cleanText` composition used for
`description` maps a blank source value to `none`. -/
theorem cleanText_jsStrOr_blank (o : Option String) (h : blankStrOpt o) :
    cleanText (some (jsStrOr o "")) = none := by
  cases o with
  | none => rfl
  | some s =>
    by_cases hs : s = ""
    · simp [jsStrOr, hs, cleanText]
    · have hb := cleanText_of_blank s (h s rfl)
      simpa [jsStrOr, hs] using hb

/-- If every entry of `l` is blank, cleaning the head of its truthy
sublist gives `none` (the `ageGroup` aggregation path). -/
theorem cleanText_truthyList_head_blank (l : List (Option String))
    (h : ∀ o ∈ l, blankStrOpt o) :
    cleanText (truthyList l).head? = none := by
  cases hh : (truthyList l).head? with
  | none => rfl
  | some x =>
    have hx : x ∈ truthyList l := by
      cases tl : truthyList l with
      | nil => rw [tl] at hh; cases hh
      | cons a as =>
        rw [tl] at hh
        have ha : a = x := by simpa using hh
        rw [← ha]
        exact List.mem_cons_self a as
    have hsome : some x ∈ l ∧ x ≠ "" := by
      unfold truthyList at hx
      rcases List.mem_filterMap.mp hx with ⟨o, ho, hfo⟩
      cases o with
      | none => cases hfo
      | some s =>
        by_cases hs : s = ""
        · simp [hs] at hfo
        · simp [hs] at hfo
          subst hfo
          exact ⟨ho, hs⟩
    exact cleanText_of_blank x (h (some x) hsome.1 x rfl)

/-- C6 amended.  For `description`, `library`, `startTime`, `endTime`,
`website` and `ageGroup` a blank source value (absent, empty, or
whitespace-only) normalizes to `none`; `title` is the exception: a
missing or empty title becomes the placeholder `"Untitled Event"`,
while a whitespace-only title still normalizes to `none`. -/
theorem c6_amended_blank_fields (fb : String → Option Int) (tz nyOff : Int)
    (raw : RawRecord) (now : Nat) :
    (blankStrOpt raw.description →
      (normalizeEvent fb tz nyOff raw now).description = none) ∧
    (blankStrOpt raw.library →
      (normalizeEvent fb tz nyOff raw now).library = none) ∧
    (blankStrOpt raw.starttime →
      (normalizeEvent fb tz nyOff raw now).startTime = none) ∧
    (blankStrOpt raw.endtime →
      (normalizeEvent fb tz nyOff raw now).endTime = none) ∧
    (blankStrOpt raw.pagelink →
      (normalizeEvent fb tz nyOff raw now).website = none) ∧
    (blankStrOpt raw.agegroup1 → blankStrOpt raw.agegroup2 →
     blankStrOpt raw.agegroup3 →
      (normalizeEvent fb tz nyOff raw now).ageGroup = none) ∧
    ((raw.title = none ∨ raw.title = some "") →
      (normalizeEvent fb tz nyOff raw now).title = some "Untitled Event") ∧
    (∀ s, raw.title = some s → s ≠ "" → trimL s.toList = [] →
      (normalizeEvent fb tz nyOff raw now).title = none) := by
  refine ⟨?_, ?_, ?_, ?_, ?_, ?_, ?_, ?_⟩
  · exact fun h => cleanText_jsStrOr_blank raw.description h
  · exact fun h => cleanText_of_blankOpt raw.library h
  · exact fun h => cleanText_of_blankOpt raw.starttime h
  · exact fun h => cleanText_of_blankOpt raw.endtime h
  · exact fun h => cleanText_of_blankOpt raw.pagelink h
  · intro h1 h2 h3
    refine cleanText_truthyList_head_blank [raw.agegroup1, raw.agegroup2, raw.agegroup3] ?_
    intro o ho
    rcases List.mem_cons.mp ho with rfl | ho
    · exact h1
    rcases List.mem_cons.mp ho with rfl | ho
    · exact h2
    rcases List.mem_cons.mp ho with rfl | ho
    · exact h3
    cases ho
  · intro h
    have ht : (normalizeEvent fb tz nyOff raw now).title =
        cleanText (some (jsStrOr raw.title "Untitled Event")) := rfl
    rcases h with h | h <;> rw [ht, h] <;> decide
  · intro s hs hne hblank
    have ht : (normalizeEvent fb tz nyOff raw now).title =
        cleanText (some (jsStrOr raw.title "Untitled Event")) := rfl
    rw [ht, hs]
    have : jsStrOr (some s) "Untitled Event" = s := by simp [jsStrOr, hne]
    rw [this]
    exact cleanText_of_blank s hblank

/-- C6 counterexample.  A record with no title at all normalizes to the
placeholder title `"Untitled Event"`, not to `none`. -/
theorem c6_counterexample :
    emptyRaw.title = none ∧
    (normalizeEvent fb0 (-300) (-300) emptyRaw 0).title = some "Untitled Event" := by
  decide

/-- A raw record with a whitespace-only description and title. -/
def rawBlank : RawRecord :=
  { title := some "   ", description := some "  ", agegroup1 := some " " }

/-- C6 amended, witness: blank fields of concrete records evaluated
through the theorem. -/
theorem c6_amended_witness :
    (normalizeEvent fb0 (-300) (-300) rawBlank 0).description = none ∧
    (normalizeEvent fb0 (-300) (-300) rawBlank 0).ageGroup = none ∧
    (normalizeEvent fb0 (-300) (-300) emptyRaw 0).title = some "Untitled Event" ∧
    (normalizeEvent fb0 (-300) (-300) rawBlank 0).title = none :=
  ⟨(c6_amended_blank_fields fb0 (-300) (-300) rawBlank 0).1
      (fun s hs => by cases hs; decide),
   ((c6_amended_blank_fields fb0 (-300) (-300) rawBlank 0).2.2.2.2.2).1
      (fun s hs => by cases hs; decide)
      (fun s hs => by cases hs)
      (fun s hs => by cases hs),
   ((c6_amended_blank_fields fb0 (-300) (-300) emptyRaw 0).2.2.2.2.2.2).1
      (Or.inl rfl),
   ((c6_amended_blank_fields fb0 (-300) (-300) rawBlank 0).2.2.2.2.2.2).2
      "   " rfl (by decide) (by decide)⟩

/-- C7 counterexample.  In the `GET /new` API-path filter, an event
lacking every last-modified field (`evNoMeta`) is *included* when its
`startDate` is in the future, even though another event of the same
collection (`evWithMeta`) does carry modification metadata: the
degraded `startDate` rule is applied per individual event. -/
theorem c7_counterexample :
    evNoMeta.lastupdated = none ∧ evNoMeta.lastUpdated = none ∧
    evNoMeta.rawData = some ({} : RawTimes) ∧
    (evWithMeta.rawData.map (·.lastupdated)) = some (some 1699900000000) ∧
    newApiFiltered [evWithMeta, evNoMeta] 1700000000000 7 =
      [evWithMeta, evNoMeta] := by
  decide

/-- C7 amended.  The `GET /new` API-path filter treats an event lacking
every last-modified value by the per-event `startDate` fallback: it is
included exactly when its `startDate` exists and lies in the future or
within the window; lacking both, it is excluded. -/
theorem c7_amended_fallback (e : NewEvent) (now daysNum : Int)
    (hraw : ∀ rd, e.rawData = some rd → rd.lastupdated = none ∧ rd.lastUpdated = none)
    (h1 : e.lastupdated = none) (h2 : e.lastUpdated = none) :
    newApiInclude e now daysNum = true ↔
      ∃ sd, e.startDate = some sd ∧
        (now - sd ≤ daysNum * 86400000 ∨ now - sd < 0) := by
  unfold newApiInclude
  have hluv : (match e.rawData with
      | some rd =>
        match jsInstOr rd.lastupdated rd.lastUpdated with
        | some x => some x
        | none => jsInstOr e.lastupdated e.lastUpdated
      | none => jsInstOr e.lastupdated e.lastUpdated) = (none : Option Int) := by
    cases hr : e.rawData with
    | none => simp [jsInstOr, h1, h2]
    | some rd =>
      obtain ⟨hr1, hr2⟩ := hraw rd hr
      simp [jsInstOr, h1, h2, hr1, hr2]
  rw [hluv]
  cases hs : e.startDate with
  | none => simp [hs]
  | some sd => simp [hs]

/-- C7 amended, witness: the fallback rule evaluated at `evNoMeta`. -/
theorem c7_amended_witness :
    newApiInclude evNoMeta 1700000000000 7 = true ↔
      ∃ sd, evNoMeta.startDate = some sd ∧
        (1700000000000 - sd ≤ 7 * 86400000 ∨ 1700000000000 - sd < 0) :=
  c7_amended_fallback evNoMeta 1700000000000 7
    (by intro rd hr
        have : rd = ({} : RawTimes) := by
          have h := hr
          simp [evNoMeta] at h
          exact h.symm
        subst this
        exact ⟨rfl, rfl⟩)
    rfl rfl

/-- C10.  The `days` validation of `GET /new`: a present `days` value
whose `parseInt` misses `{1, 4, 7, 14, 21, 28}` (including `NaN`) gets
the early `400 { success: false, events: [] }` response before any data
is fetched, while an absent `days` defaults to 28 and proceeds. -/
theorem c10_days_validation :
    (∀ s : String, parseMissesValidDays s = true →
      handleNewDays (some s) = .errorResp 400 false true) ∧
    handleNewDays none = .proceed 28 := by
  constructor
  · intro s h
    unfold parseMissesValidDays at h
    show (match jsParseInt s with
          | some n =>
            if validDays.contains n = true then NewDaysOutcome.proceed n
            else NewDaysOutcome.errorResp 400 false true
          | none => NewDaysOutcome.errorResp 400 false true) =
        NewDaysOutcome.errorResp 400 false true
    cases hp : jsParseInt s with
    | none => rfl
    | some n =>
      rw [hp] at h
      simp only [Bool.not_eq_true'] at h
      exact if_neg (by rw [h]; simp)
  · rfl

/-- C10 witness: `days=5` is rejected with the 400 response, and an
absent `days` proceeds with 28. -/
theorem c10_days_validation_witness :
    handleNewDays (some "5") = .errorResp 400 false true ∧
    handleNewDays none = .proceed 28 :=
  ⟨c10_days_validation.1 "5" (by decide), c10_days_validation.2⟩

/-- The index `createLocationLookup` builds from the single
"North York Central Library" branch record: the name as-is, lower-cased,
and with `Library` stripped, all sharing one payload. -/
theorem createLookup_nyc (lat lng : Int) (hlat : lat ≠ 0) (hlng : lng ≠ 0) :
    createLocationLookup [nycRecord lat lng] =
      [("North York Central Library", nycData lat lng),
       ("north york central library", nycData lat lng),
       ("North York Central", nycData lat lng)] := by
  have h1 : parseCoordinate (some lat) = some lat := by simp [parseCoordinate, hlat]
  have h2 : parseCoordinate (some lng) = some lng := by simp [parseCoordinate, hlng]
  have h3 : (lat != 0) = true := by simpa using hlat
  have h4 : (lng != 0) = true := by simpa using hlng
  have hname : cleanText (some "North York Central Library") =
      some "North York Central Library" := by decide
  simp only [createLocationLookup, normalizeLocation, nycRecord, List.foldl,
    h1, h2, h3, h4, hname]
  rfl

/-- C8.  With the index built from the physical "North York Central
Library" branch record (any non-zero coordinates), both
`findLibraryCoordinates "north york central"` and
`findLibraryCoordinates "North York Central Branch"` resolve to that
branch's payload: the first through the fuzzy containment scan against
the stripped key `"North York Central"`, the second through its
`branch`-stripped search term and the same fuzzy scan. -/
theorem c8_resolution (lat lng : Int) (hlat : lat ≠ 0) (hlng : lng ≠ 0) :
    findLibraryCoordinates "north york central"
        (createLocationLookup [nycRecord lat lng]) = some (nycData lat lng) ∧
    findLibraryCoordinates "North York Central Branch"
        (createLocationLookup [nycRecord lat lng]) = some (nycData lat lng) := by
  rw [createLookup_nyc lat lng hlat hlng]
  exact ⟨rfl, rfl⟩

/-- C8 witness: the resolution evaluated at the branch's actual
coordinates (scaled to integers). -/
theorem c8_resolution_witness :
    findLibraryCoordinates "north york central"
        (createLocationLookup [nycRecord 437615 (-794111)]) =
      some (nycData 437615 (-794111)) ∧
    findLibraryCoordinates "North York Central Branch"
        (createLocationLookup [nycRecord 437615 (-794111)]) =
      some (nycData 437615 (-794111)) :=
  c8_resolution 437615 (-794111) (by decide) (by decide)

/-- The cell counts of `renderCalendarAux` for February 2024, with the
two week-day offsets generalized over their full range. -/
theorem c9_aux (tz nyOff : Int) (events : List CalEvent)
    (today : Int × Int × Int) (f l : Int)
    (hf0 : 0 ≤ f) (hf7 : f < 7) (hl0 : 0 ≤ l) (hl7 : l < 7) :
    (renderCalendarAux 2024 1 tz nyOff events today f l).length % 7 = 0 ∧
    ((renderCalendarAux 2024 1 tz nyOff events today f l).filter
      (·.isCurrentMonth)).length = 29 := by
  unfold renderCalendarAux
  constructor
  · rw [List.length_map, List.length_range]
    exact Nat.mul_mod_left _ 7
  · rw [List.filter_map, List.length_map]
    simp only [Function.comp_def]
    interval_cases f <;> interval_cases l <;> decide

/-- C9.  The grid `renderCalendar` builds for February 2024 always has
a cell count that is a multiple of 7, and exactly 29 of its cells are
classified as belonging to the target month — for every process
timezone, New York offset, `today` value and event list. -/
theorem c9_feb2024_grid (tz nyOff : Int) (events : List CalEvent)
    (today : Int × Int × Int) :
    (renderCalendarCells 2024 1 tz nyOff events today).length % 7 = 0 ∧
    ((renderCalendarCells 2024 1 tz nyOff events today).filter
      (·.isCurrentMonth)).length = 29 := by
  have h7 : (0 : Int) < 7 := by norm_num
  exact c9_aux tz nyOff events today _ _
    (Int.emod_nonneg _ (by norm_num)) (Int.emod_lt_of_pos _ h7)
    (Int.emod_nonneg _ (by norm_num)) (Int.emod_lt_of_pos _ h7)

/-- Pushing onto a bucket appends to that key's list. -/
theorem bucketGet_push_self (m : List ((Int × Int × Int) × List CalEvent))
    (k : Int × Int × Int) (e : CalEvent) :
    bucketGet (bucketPush m k e) k = bucketGet m k ++ [e] := by
  induction m with
  | nil => simp [bucketPush, bucketGet]
  | cons p rest ih =>
    obtain ⟨k', l⟩ := p
    by_cases h : k' = k
    · subst h
      simp [bucketPush, bucketGet]
    · simp [bucketPush, bucketGet, h, ih]

/-- Pushing onto a bucket leaves the other keys unchanged. -/
theorem bucketGet_push_of_ne (m : List ((Int × Int × Int) × List CalEvent))
    (k k2 : Int × Int × Int) (e : CalEvent) (h : k2 ≠ k) :
    bucketGet (bucketPush m k e) k2 = bucketGet m k2 := by
  induction m with
  | nil => simp [bucketPush, bucketGet, Ne.symm h]
  | cons p rest ih =>
    obtain ⟨k', l⟩ := p
    by_cases hk : k' = k
    · subst hk
      simp [bucketPush, bucketGet, Ne.symm h]
    · simp [bucketPush, bucketGet, hk, ih]

/-- Membership in a bucket survives a push. -/
theorem mem_bucketGet_push (m : List ((Int × Int × Int) × List CalEvent))
    (k k2 : Int × Int × Int) (e x : CalEvent) (h : x ∈ bucketGet m k2) :
    x ∈ bucketGet (bucketPush m k e) k2 := by
  by_cases hk : k2 = k
  · subst hk
    rw [bucketGet_push_self]
    exact List.mem_append_left _ h
  · rw [bucketGet_push_of_ne m k k2 e hk]
    exact h

/-- Membership in a bucket survives one `forEach` step. -/
theorem mem_bucketGet_visStep (startD endD tz nyOff : Int)
    (acc : List ((Int × Int × Int) × List CalEvent)) (e2 x : CalEvent)
    (k : Int × Int × Int) (h : x ∈ bucketGet acc k) :
    x ∈ bucketGet (visStep startD endD tz nyOff acc e2) k := by
  unfold visStep
  cases e2.startDay with
  | none => exact h
  | some d =>
    dsimp only
    split
    · exact mem_bucketGet_push _ _ _ _ _ h
    · exact h

/-- Membership in a bucket survives the rest of the fold. -/
theorem mem_bucketGet_foldl (startD endD tz nyOff : Int) (l : List CalEvent)
    (acc : List ((Int × Int × Int) × List CalEvent)) (x : CalEvent)
    (k : Int × Int × Int) (h : x ∈ bucketGet acc k) :
    x ∈ bucketGet (l.foldl (visStep startD endD tz nyOff) acc) k := by
  induction l generalizing acc with
  | nil => exact h
  | cons a r ih => exact ih _ (mem_bucketGet_visStep startD endD tz nyOff acc a x k h)

/-- Every event of the list whose New York calendar day lies in the
visible span ends up in the bucket of its New York civil date. -/
theorem mem_bucketGet_build (startD endD tz nyOff : Int) (e : CalEvent) (d : Int)
    (hd : e.startDay = some d)
    (hlo : daysFromCivil3 (civilFromDays startD) ≤
           daysFromCivil3 (civilFromDays (estDayOfLocalDay d tz nyOff)))
    (hhi : daysFromCivil3 (civilFromDays (estDayOfLocalDay d tz nyOff)) ≤
           daysFromCivil3 (civilFromDays endD)) :
    ∀ (l : List CalEvent) (acc : List ((Int × Int × Int) × List CalEvent)),
      e ∈ l →
      e ∈ bucketGet (l.foldl (visStep startD endD tz nyOff) acc)
        (civilFromDays (estDayOfLocalDay d tz nyOff)) := by
  intro l
  induction l with
  | nil => intro acc h; cases h
  | cons a r ih =>
    intro acc h
    rcases List.mem_cons.mp h with rfl | hmem
    · rw [List.foldl_cons]
      apply mem_bucketGet_foldl
      unfold visStep
      rw [hd]
      dsimp only
      rw [if_pos ⟨hlo, hhi⟩, bucketGet_push_self]
      exact List.mem_append_right _ (List.mem_singleton.mpr rfl)
    · rw [List.foldl_cons]
      exact ih (visStep startD endD tz nyOff acc a) hmem

/-- C4 amended.  In the grid `renderCalendar` builds, an event whose
New York civil date lies in the visible span is placed in the event
list of every cell that *belongs to the target month* and whose date
equals the event's date; the leading and trailing cells outside the
target month always carry an empty event list (see the
counterexample), because event attachment is gated on
`isCurrentMonth`. -/
theorem c4_amended_bucketing (year month tz nyOff : Int) (events : List CalEvent)
    (today : Int × Int × Int) (e : CalEvent) (d : Int) (cell : CalCell)
    (he : e ∈ events) (hd : e.startDay = some d)
    (hlo : daysFromCivil3 (civilFromDays (gridStartDay year month tz nyOff)) ≤
           daysFromCivil3 (civilFromDays (estDayOfLocalDay d tz nyOff)))
    (hhi : daysFromCivil3 (civilFromDays (estDayOfLocalDay d tz nyOff)) ≤
           daysFromCivil3 (civilFromDays (gridEndDay year month tz nyOff)))
    (hc : cell ∈ renderCalendarCells year month tz nyOff events today)
    (hcur : cell.isCurrentMonth = true)
    (hdate : cell.cellDate = civilFromDays (estDayOfLocalDay d tz nyOff)) :
    e ∈ cell.dayEvents := by
  unfold renderCalendarCells renderCalendarAux at hc
  rcases List.mem_map.mp hc with ⟨i, _hi, hcell⟩
  subst hcell
  simp only at hcur hdate ⊢
  rw [hcur]
  simp only [if_true]
  rw [hdate]
  exact mem_bucketGet_build _ _ tz nyOff e d hd hlo hhi events [] he

/-- C4 counterexample.  Rendering February 2024 under an Eastern
process with a single event dated 2024-01-28: that date is the very
first day of the visible span (the leading Sunday), the event's New
York civil date equals that cell's date, and yet the cell's event list
is empty — events are only attached to cells of the target month. -/
theorem c4_counterexample :
    ((renderCalendarCells 2024 1 (-300) (-300) [calJan28] (2024, 2, 10)).head?.map
      (fun c => (c.cellDate, c.isCurrentMonth, c.dayEvents))) =
        some ((2024, 1, 28), false, []) ∧
    civilFromDays (estDayOfLocalDay (daysFromCivil 2024 1 28) (-300) (-300)) =
      (2024, 1, 28) ∧
    gridStartDay 2024 1 (-300) (-300) = daysFromCivil 2024 1 28 := by
  decide

/-- C4 amended, witness: the theorem applied to the February 2024 grid
under an Eastern process, an event dated 2024-02-05, and the cell of
2024-02-05 (index 8 of the grid). -/
theorem c4_amended_witness :
    calFeb5 ∈ (CalCell.mk 19758 (2024, 2, 5) true false [calFeb5]).dayEvents :=
  c4_amended_bucketing 2024 1 (-300) (-300) [calFeb5] (2024, 2, 10) calFeb5 19758
    (CalCell.mk 19758 (2024, 2, 5) true false [calFeb5])
    (by decide) (by decide) (by decide) (by decide) (by decide) (by decide)
    (by decide)

